import Mathlib

/-!
Shallow embedding of the streaming chat backend of this repository
(`backend/main.py`, `backend/gemini_client.py`, `backend/persistence.py`,
`backend/models.py`).

Modelling conventions:
* Python attribute and dictionary access is made explicit: a raw history
  record is either an attribute object or a dict, each with optional
  `role`, `text`, `parts` fields, mirroring the `hasattr`, `getattr` and
  `dict.get` semantics used by `stream_chat_response`.
* Content values are either strings or lists of strings; Python truthiness
  of such a value is `PyVal.truthy`.
* A raised Python exception is an `Except.error` carrying its description.
* The per-session history files of `persistence.py` are abstracted as a
  total map from session id to the list of stored messages; a missing file
  is the empty list, exactly what `load_session_history` returns then.
* The external model provider behind `start_chat` and `send_message` is a
  parameter: given the formatted history and the new message it yields the
  texts of the chunks it will stream and, optionally, the description of
  an exception raised after those chunks.
* The caller-liveness probe `http_request.is_disconnected()` is a Boolean
  sequence indexed by poll number; `event_generator` polls once per chunk
  received from the driver.
* `datetime` timestamps and uuid generation are omitted: no control flow
  of the claims reads them.
-/

namespace Backend

/-- The `Message` pydantic model of `models.py` (timestamp omitted). -/
structure Message where
  session_id : String
  role : String
  text : String
deriving Repr, DecidableEq

/-- The `Session` pydantic model of `models.py` (creation time omitted). -/
structure Session where
  id : String
  title : String
deriving Repr, DecidableEq

/-- A Python content value reaching the normalizer: a string or a list
(list elements are kept as the strings `str` would map them to). -/
inductive PyVal where
  | str (s : String)
  | list (xs : List String)
deriving Repr, DecidableEq

/-- Python truthiness of a content value: empty string and empty list are
falsy. -/
def PyVal.truthy : PyVal → Bool
  | .str s => s != ""
  | .list xs => xs != []

/-- Python `a or b` on an optional content value: `None` and falsy values
fall through to `b`. -/
def pyOr (a : Option PyVal) (b : PyVal) : PyVal :=
  match a with
  | some v => if v.truthy then v else b
  | none => b

/-- A raw history record as consumed by `stream_chat_response`: either an
object carrying (possibly missing) `role`, `text`, `parts` attributes, or
a Python dict with (possibly missing) `role`, `text`, `parts` keys. -/
inductive RawRecord where
  | obj (role : Option String) (text : Option PyVal) (parts : Option PyVal)
  | dict (role : Option String) (text : Option PyVal) (parts : Option PyVal)
deriving Repr, DecidableEq

/-- A stored `Message`, as seen by the smart-detection logic: an object
with `role` and `text` attributes and no `parts` attribute. -/
def Message.toRaw (m : Message) : RawRecord :=
  RawRecord.obj (some m.role) (some (PyVal.str m.text)) none

/-- One entry of the `formatted_history` list built by
`stream_chat_response`: a dict `\x7b"role": r, "parts": [s]\x7d`. -/
structure GTurn where
  role : String
  parts : List String
deriving Repr, DecidableEq

/-- The content coercion of `stream_chat_response`: a list is joined with
single spaces, a string is kept (and `str` is the identity on it). -/
def coerceContent : PyVal → String
  | .str s => s
  | .list xs => String.intercalate " " xs

/-- The smart-detection logic of `stream_chat_response`: branch 1 fires
when the record has a `text` attribute and then reads `msg.role`
unconditionally, raising an attribute error when `role` is missing;
branch 2 handles dicts via `get` with defaults; branch 3 uses `getattr`
with defaults. -/
def extractRoleContent : RawRecord → Except String (String × PyVal)
  | RawRecord.obj role text parts =>
    match text with
    | some t =>
      match role with
      | some r => Except.ok (r, t)
      | none => Except.error "AttributeError: role"
    | none => Except.ok (role.getD "user", pyOr parts (PyVal.str ""))
  | RawRecord.dict role text parts =>
    Except.ok (role.getD "user", pyOr parts (text.getD (PyVal.str "")))

/-- Processing of one record by `stream_chat_response`: role collapse
(`"model"` kept, everything else becomes `"user"`), content coercion, and
the falsy-content drop; `Except.ok none` means the record is dropped. -/
def normalizeRecord (msg : RawRecord) : Except String (Option GTurn) :=
  match extractRoleContent msg with
  | Except.error e => Except.error e
  | Except.ok rc =>
    let gemini_role := if rc.1 = "model" then "model" else "user"
    let content := coerceContent rc.2
    if content = "" then Except.ok none
    else Except.ok (some ⟨gemini_role, [content]⟩)

/-- The `formatted_history` loop of `stream_chat_response`: records are
processed in order, dropped records leave no entry, and a raised error
aborts the whole call. -/
def normalizeHistory : List RawRecord → Except String (List GTurn)
  | [] => Except.ok []
  | msg :: rest =>
    match normalizeRecord msg with
    | Except.error e => Except.error e
    | Except.ok none => normalizeHistory rest
    | Except.ok (some t) =>
      match normalizeHistory rest with
      | Except.error e => Except.error e
      | Except.ok ts => Except.ok (t :: ts)

/-- Behavior of the external provider for one `send_message(..., stream=True)`
call: the `.text` values of the chunks it yields, in order, and optionally
the description of an exception it raises after those chunks. -/
structure ProviderResult where
  chunks : List String
  error : Option String
deriving Repr, DecidableEq

/-- The opaque model handle: a function of the formatted history handed to
`start_chat` and of the new message handed to `send_message`. -/
def Provider : Type :=
  List GTurn → String → ProviderResult

/-- What one run of the async generator `stream_chat_response` does: the
fragments it yields (chunks with falsy `.text` are skipped by the
`if chunk.text` guard) and the optional exception ending it; an exception
raised while formatting the history ends it before any fragment. -/
structure StreamResult where
  fragments : List String
  error : Option String
deriving Repr, DecidableEq

/-- `stream_chat_response` of `gemini_client.py`, relative to a provider. -/
def stream_chat_response (prov : Provider) (new_message_text : String)
    (chat_history_objects : List RawRecord) : StreamResult :=
  match normalizeHistory chat_history_objects with
  | Except.error e => ⟨[], some e⟩
  | Except.ok formatted_history =>
    let r := prov formatted_history new_message_text
    ⟨r.chunks.filter (fun c => c != ""), r.error⟩

/-- One event yielded by `event_generator` to the SSE layer: a plain
`\x7b"data": chunk\x7d` fragment, the `end` event, or the `error` event. -/
inductive SSEEvent where
  | fragment (data : String)
  | endEvent (data : String)
  | errorEvent (data : String)
deriving Repr, DecidableEq

/-- The `async for` loop of `event_generator`: for each chunk received
from the driver it polls `is_disconnected` (poll results given by `disc`,
shifted by one at each step), breaking on a positive poll, otherwise
appending the chunk to the accumulator and yielding a fragment event.
Returns the yielded events, the final accumulator, and whether the loop
was left by `break`. -/
def streamLoop : List String → (Nat → Bool) → String → List SSEEvent × String × Bool
  | [], _, acc => ([], acc, false)
  | chunk :: rest, disc, acc =>
    if disc 0 then ([], acc, true)
    else
      let r := streamLoop rest (fun i => disc (i + 1)) (acc ++ chunk)
      (SSEEvent.fragment chunk :: r.1, r.2)

/-- The chunks actually relayed to the caller: the longest initial segment
of the driver's fragments whose disconnect polls were all negative. -/
def relayedChunks : List String → (Nat → Bool) → List String
  | [], _ => []
  | chunk :: rest, disc =>
    if disc 0 then [] else chunk :: relayedChunks rest (fun i => disc (i + 1))

/-- Concatenation of a list of strings, in order. -/
def concatAll : List String → String
  | [] => ""
  | s :: rest => s ++ concatAll rest

/-- Python `str.strip()` with no argument: leading and trailing whitespace
removed (implemented structurally over the character list so that it
computes by kernel reduction). -/
def pyStrip (s : String) : String :=
  String.mk ((s.data.dropWhile Char.isWhitespace).reverse.dropWhile Char.isWhitespace).reverse

/-- Accumulator-style splitting on whitespace runs for `pySplit`. -/
def pySplitAux : List Char → List Char → List String
  | [], cur => if cur.isEmpty then [] else [String.mk cur.reverse]
  | c :: rest, cur =>
    if c.isWhitespace then
      (if cur.isEmpty then pySplitAux rest [] else String.mk cur.reverse :: pySplitAux rest [])
    else pySplitAux rest (c :: cur)

/-- Python `str.split()` with no argument: split on whitespace runs and
drop empty pieces. -/
def pySplit (s : String) : List String :=
  pySplitAux s.data []

/-- `load_session_history` of `persistence.py`, over the abstracted
history store (a missing file is the empty list). -/
def load_session_history (store : String → List Message) (session_id : String) :
    List Message :=
  store session_id

/-- `append_message_to_session` of `persistence.py`: load the session's
history, append the message, write it back. -/
def append_message_to_session (store : String → List Message) (message : Message) :
    String → List Message :=
  fun sid =>
    if sid = message.session_id then store message.session_id ++ [message]
    else store sid

/-- The `ChatRequest` pydantic model of `main.py`; `Content` is the model
of `models.py` used for the optional caller-supplied history. -/
structure Content where
  parts : PyVal
  role : String
deriving Repr, DecidableEq

/-- A chat request: session id, new message, and the caller-supplied
history that `event_generator` intentionally never reads. -/
structure ChatRequest where
  session_id : String
  message : String
  history : List Content
deriving Repr, DecidableEq

/-- The async generator `event_generator` defined inside `chat_stream`:
loads the durable history (ignoring `request.history`), drives
`stream_chat_response`, relays fragments while polling for disconnect,
emits the terminal event (`end` after normal completion or after a
disconnect `break`, `error` with the exception's description when the
driver raised), and in the `finally` block persists the accumulated text
as one model turn when it has any non-whitespace character. Returns the
yielded events and the history store after the `finally` block. -/
def event_generator (prov : Provider) (disc : Nat → Bool)
    (store : String → List Message) (request : ChatRequest) :
    List SSEEvent × (String → List Message) :=
  let current_history := load_session_history store request.session_id
  let sr := stream_chat_response prov request.message (current_history.map Message.toRaw)
  let r := streamLoop sr.fragments disc ""
  let events := r.1 ++
    (if r.2.2 then [SSEEvent.endEvent "Stream finished"]
     else
       match sr.error with
       | none => [SSEEvent.endEvent "Stream finished"]
       | some e => [SSEEvent.errorEvent e])
  let full_response_text := r.2.1
  let store2 :=
    if pyStrip full_response_text ≠ "" then
      append_message_to_session store ⟨request.session_id, "model", full_response_text⟩
    else store
  (events, store2)

/-- Lookup in a Python dict modelled as an association list. -/
def dictFind {β : Type} : List (String × β) → String → Option β
  | [], _ => none
  | p :: rest, k => if p.1 = k then some p.2 else dictFind rest k

/-- Assignment to an existing key of a Python dict modelled as an
association list (the key keeps its position). -/
def dictSet {β : Type} (l : List (String × β)) (k : String) (v : β) :
    List (String × β) :=
  l.map (fun p => if p.1 = k then (k, v) else p)

/-- `save_session` of `persistence.py`: update the entry under the
session's id if present, else append it. -/
def save_session (all_sessions : List (String × Session)) (session : Session) :
    List (String × Session) :=
  if (dictFind all_sessions session.id).isSome then
    dictSet all_sessions session.id session
  else all_sessions ++ [(session.id, session)]

/-- `update_session_title` of `persistence.py`: a no-op when the session
id is absent from the sessions file. -/
def update_session_title (all_sessions : List (String × Session))
    (session_id : String) (new_title : String) : List (String × Session) :=
  match dictFind all_sessions session_id with
  | some session => save_session all_sessions { session with title := new_title }
  | none => all_sessions

/-- The process state of `main.py` (`STATE.sessions`, `STATE.gemini_client`)
together with the abstracted durable files: the per-session history store
and the `sessions.json` index. -/
structure AppState where
  sessions : List (String × Session)
  gemini_client : Bool
  store : String → List Message
  disk_sessions : List (String × Session)

/-- Result of one `chat_stream` call: an HTTP exception raised during
validation, or the streamed events together with the state after the
generator's `finally` block ran. -/
inductive ChatStreamResult where
  | httpError (status : Nat) (detail : String) (state : AppState)
  | ok (events : List SSEEvent) (state : AppState)

/-- The `/api/chat/stream` endpoint `chat_stream` of `main.py`:
validation (404 on unknown session, 503 on missing client handle), user
turn persistence, conditional title update, then the event generator. -/
def chat_stream (prov : Provider) (disc : Nat → Bool) (st : AppState)
    (request : ChatRequest) : ChatStreamResult :=
  match dictFind st.sessions request.session_id with
  | none => ChatStreamResult.httpError 404 "Session not found" st
  | some current_session =>
    if st.gemini_client = false then
      ChatStreamResult.httpError 503 "Gemini client not available" st
    else
      let user_msg : Message := ⟨request.session_id, "user", request.message⟩
      let store1 := append_message_to_session st.store user_msg
      let new_title := String.intercalate " " ((pySplit request.message).take 5)
      let sessions1 :=
        if current_session.title = "New Chat" then
          dictSet st.sessions request.session_id { current_session with title := new_title }
        else st.sessions
      let disk1 :=
        if current_session.title = "New Chat" then
          update_session_title st.disk_sessions request.session_id new_title
        else st.disk_sessions
      let gen := event_generator prov disc store1 request
      ChatStreamResult.ok gen.1
        { sessions := sessions1, gemini_client := st.gemini_client,
          store := gen.2, disk_sessions := disk1 }

/-- The events of a `ChatStreamResult` that did stream. -/
def resultEvents : ChatStreamResult → Option (List SSEEvent)
  | ChatStreamResult.ok events _ => some events
  | ChatStreamResult.httpError _ _ _ => none

/-- The reply text accumulated by `event_generator` over one call: the
concatenation, in order, of the driver fragments relayed before normal
completion, disconnection, or the driver's error. -/
def accumulatedReply (prov : Provider) (disc : Nat → Bool)
    (store : String → List Message) (request : ChatRequest) : String :=
  concatAll (relayedChunks
    (stream_chat_response prov request.message
      ((load_session_history store request.session_id).map Message.toRaw)).fragments disc)

/-- A raw record on which the smart-detection logic cannot trip over the
unconditional `msg.role` read of its first branch: any dict, and any
attribute object that lacks `text` or carries `role` as well. -/
def RawRecord.safeShape : RawRecord → Bool
  | RawRecord.obj role text _ => text.isNone || role.isSome
  | RawRecord.dict _ _ _ => true

/-- A canonical output entry fed back to the normalizer: the dict
`\x7b"role": r, "parts": l\x7d` it itself produces. -/
def GTurn.toRaw (t : GTurn) : RawRecord :=
  RawRecord.dict (some t.role) none (some (PyVal.list t.parts))

/-- A turn in canonical output form: role already collapsed and content a
single non-empty string. -/
def canonicalTurn (t : GTurn) : Prop :=
  (t.role = "user" ∨ t.role = "model") ∧ ∃ s, t.parts = [s] ∧ s ≠ ""

theorem streamLoop_acc (frags : List String) : ∀ (disc : Nat → Bool) (acc : String),
    (streamLoop frags disc acc).2.1 = acc ++ concatAll (relayedChunks frags disc) := by
  induction frags with
  | nil => intro disc acc; simp [streamLoop, relayedChunks, concatAll]
  | cons chunk rest ih =>
    intro disc acc
    by_cases h : disc 0 = true
    · simp [streamLoop, relayedChunks, h, concatAll]
    · simp only [Bool.not_eq_true] at h
      simp [streamLoop, relayedChunks, h, concatAll, ih, String.append_assoc]

theorem streamLoop_events (frags : List String) : ∀ (disc : Nat → Bool) (acc : String),
    (streamLoop frags disc acc).1 = (relayedChunks frags disc).map SSEEvent.fragment := by
  induction frags with
  | nil => intro disc acc; simp [streamLoop, relayedChunks]
  | cons chunk rest ih =>
    intro disc acc
    by_cases h : disc 0 = true
    · simp [streamLoop, relayedChunks, h]
    · simp only [Bool.not_eq_true] at h
      simp [streamLoop, relayedChunks, h, ih]

theorem streamLoop_nodisc (frags : List String) : ∀ (disc : Nat → Bool) (acc : String),
    (∀ j, j < frags.length → disc j = false) →
    streamLoop frags disc acc = (frags.map SSEEvent.fragment, acc ++ concatAll frags, false) := by
  induction frags with
  | nil => intro disc acc _; simp [streamLoop, concatAll]
  | cons chunk rest ih =>
    intro disc acc h
    have h0 : disc 0 = false := h 0 (by simp)
    rw [streamLoop, if_neg (by simp [h0])]
    rw [ih (fun i => disc (i + 1)) (acc ++ chunk)
      (fun j hj => h (j + 1) (by simpa using Nat.succ_lt_succ hj))]
    simp [concatAll, String.append_assoc]

theorem streamLoop_disconnect (frags : List String) :
    ∀ (disc : Nat → Bool) (acc : String) (k : Nat), k < frags.length →
    disc k = true → (∀ j, j < k → disc j = false) →
    streamLoop frags disc acc =
      ((frags.take k).map SSEEvent.fragment, acc ++ concatAll (frags.take k), true) := by
  induction frags with
  | nil => intro disc acc k hk _ _; simp at hk
  | cons chunk rest ih =>
    intro disc acc k hk hdisc hbefore
    cases k with
    | zero =>
      rw [streamLoop, if_pos (by simp [hdisc])]
      simp [concatAll]
    | succ k =>
      have h0 : disc 0 = false := hbefore 0 (Nat.succ_pos k)
      rw [streamLoop, if_neg (by simp [h0])]
      rw [ih (fun i => disc (i + 1)) (acc ++ chunk) k (by simpa using hk) hdisc
        (fun j hj => hbefore (j + 1) (by omega))]
      simp [concatAll, String.append_assoc]

theorem dictFind_dictSet_self {β : Type} (l : List (String × β)) (k : String) (v : β)
    (h : (dictFind l k).isSome = true) : dictFind (dictSet l k v) k = some v := by
  induction l with
  | nil => simp [dictFind] at h
  | cons p rest ih =>
    by_cases hp : p.1 = k
    · simp [dictFind, dictSet, hp]
    · rw [show dictSet (p :: rest) k v = p :: dictSet rest k v from by
        simp [dictSet, hp]]
      rw [dictFind, if_neg hp]
      rw [dictFind, if_neg hp] at h
      exact ih h

theorem dictFind_save_session (all : List (String × Session)) (s : Session)
    (h : (dictFind all s.id).isSome = true) :
    dictFind (save_session all s) s.id = some s := by
  unfold save_session
  rw [if_pos h]
  exact dictFind_dictSet_self all s.id s h

theorem dictFind_update_title (all : List (String × Session)) (sid nt : String)
    (s2 : Session) (hd : dictFind all sid = some s2) (hid : s2.id = sid) :
    dictFind (update_session_title all sid nt) sid = some { s2 with title := nt } := by
  have h := dictFind_save_session all { s2 with title := nt } (by
    show (dictFind all s2.id).isSome = true
    rw [hid, hd]; rfl)
  unfold update_session_title
  rw [hd]
  show dictFind (save_session all { s2 with title := nt }) sid = some { s2 with title := nt }
  rw [← hid]
  exact h

theorem normalizeHistory_append_ok (rs : List RawRecord) (r : RawRecord)
    (t : GTurn) (h2 : normalizeRecord r = Except.ok (some t)) :
    ∀ ts, normalizeHistory rs = Except.ok ts →
    normalizeHistory (rs ++ [r]) = Except.ok (ts ++ [t]) := by
  induction rs with
  | nil =>
    intro ts h1
    simp only [normalizeHistory] at h1
    cases h1
    simp [normalizeHistory, h2]
  | cons m rest ih =>
    intro ts h1
    rw [List.cons_append]
    simp only [normalizeHistory] at h1 ⊢
    cases hm : normalizeRecord m with
    | error e =>
      rw [hm] at h1
      exact Except.noConfusion (show Except.error e = Except.ok ts from h1)
    | ok o =>
      rw [hm] at h1
      cases o with
      | none => exact ih ts h1
      | some t0 =>
        cases hrest : normalizeHistory rest with
        | error e =>
          rw [hrest] at h1
          exact Except.noConfusion (show Except.error e = Except.ok ts from h1)
        | ok ts0 =>
          rw [hrest] at h1
          have h1b : Except.ok (t0 :: ts0) = Except.ok ts := h1
          injection h1b with hts
          subst hts
          rw [ih ts0 hrest]
          rfl

theorem normalizeRecord_msg_toRaw (m : Message) (hmt : m.text ≠ "") :
    normalizeRecord (Message.toRaw m) =
      Except.ok (some ⟨if m.role = "model" then "model" else "user", [m.text]⟩) := by
  simp [normalizeRecord, Message.toRaw, extractRoleContent, coerceContent, hmt]

theorem normalizeHistory_map_toRaw_ok (l : List Message) :
    ∃ ts, normalizeHistory (l.map Message.toRaw) = Except.ok ts := by
  induction l with
  | nil => exact ⟨[], rfl⟩
  | cons m rest ih =>
    obtain ⟨ts, hts⟩ := ih
    by_cases hmt : m.text = ""
    · refine ⟨ts, ?_⟩
      rw [List.map_cons, normalizeHistory]
      have : normalizeRecord (Message.toRaw m) = Except.ok none := by
        simp [normalizeRecord, Message.toRaw, extractRoleContent, coerceContent, hmt]
      rw [this, hts]
    · refine ⟨⟨if m.role = "model" then "model" else "user", [m.text]⟩ :: ts, ?_⟩
      rw [List.map_cons, normalizeHistory, normalizeRecord_msg_toRaw m hmt, hts]

theorem normalizeRecord_of_extract (r : RawRecord) (role : String) (content : PyVal)
    (h : extractRoleContent r = Except.ok (role, content)) :
    normalizeRecord r =
      (if coerceContent content = "" then Except.ok none
       else Except.ok
         (some ⟨if role = "model" then "model" else "user", [coerceContent content]⟩)) := by
  unfold normalizeRecord
  rw [h]

theorem extract_ok_of_safe (r : RawRecord) (h : r.safeShape = true) :
    ∃ rc, extractRoleContent r = Except.ok rc := by
  cases r with
  | obj role text parts =>
    cases text with
    | none => exact ⟨_, rfl⟩
    | some t0 =>
      cases role with
      | none => simp [RawRecord.safeShape] at h
      | some r0 => exact ⟨_, rfl⟩
  | dict role text parts => exact ⟨_, rfl⟩

theorem normalizeRecord_safe (r : RawRecord) (h : r.safeShape = true) :
    ∃ o, normalizeRecord r = Except.ok o ∧
      ∀ t, o = some t → (t.role = "user" ∨ t.role = "model") ∧
        ∃ s, t.parts = [s] ∧ s ≠ "" := by
  obtain ⟨rc, hrc⟩ := extract_ok_of_safe r h
  obtain ⟨role, content⟩ := rc
  rw [normalizeRecord_of_extract r role content hrc]
  by_cases hc : coerceContent content = ""
  · refine ⟨none, by rw [if_pos hc], ?_⟩
    intro t ht
    exact Option.noConfusion ht
  · refine ⟨some ⟨if role = "model" then "model" else "user", [coerceContent content]⟩,
      by rw [if_neg hc], ?_⟩
    intro t ht
    injection ht with ht2
    subst ht2
    refine ⟨?_, coerceContent content, rfl, hc⟩
    by_cases hr : role = "model"
    · right; simp [hr]
    · left; simp [hr]

/-- Claim C1, counterexample: the claim asserts that after a caller
disconnect zero terminal events are emitted. On a concrete run with an
existing session, an initialized client, a provider holding two pending
fragments and a caller whose disconnect poll is positive from the start,
the generator emits exactly one event, a terminal `end` event: the
`yield` of the end marker sits after the loop and runs after `break`.
The second conjunct shows the same call without a disconnect, proving
the disconnect is what cut the two fragment events. -/
theorem C1_counterexample :
    resultEvents (chat_stream (fun _ _ => ⟨["Hello", " world"], none⟩) (fun _ => true)
        ⟨[("s1", ⟨"s1", "New Chat"⟩)], true, fun _ => [], [("s1", ⟨"s1", "New Chat"⟩)]⟩
        ⟨"s1", "Tell me a long story please now", []⟩) =
      some [SSEEvent.endEvent "Stream finished"] ∧
    resultEvents (chat_stream (fun _ _ => ⟨["Hello", " world"], none⟩) (fun _ => false)
        ⟨[("s1", ⟨"s1", "New Chat"⟩)], true, fun _ => [], [("s1", ⟨"s1", "New Chat"⟩)]⟩
        ⟨"s1", "Tell me a long story please now", []⟩) =
      some [SSEEvent.fragment "Hello", SSEEvent.fragment " world",
            SSEEvent.endEvent "Stream finished"] :=
  ⟨rfl, rfl⟩

/-- Claim C1, amended: when the caller's disconnect poll first turns
positive at fragment `k` of the stream, the emitted event sequence is
exactly the `k` fragments relayed before detection followed by one
terminal `end` event — streaming does stop at once and no further
fragment or `error` event is emitted, but one terminal `end` event is
still emitted (the end marker `yield` sits after the loop, so it also
runs after `break`). -/
theorem C1_amended_disconnect_emits_end (prov : Provider) (disc : Nat → Bool)
    (store : String → List Message) (request : ChatRequest) (k : Nat)
    (hk : k < (stream_chat_response prov request.message
      ((load_session_history store request.session_id).map Message.toRaw)).fragments.length)
    (hdisc : disc k = true) (hbefore : ∀ j, j < k → disc j = false) :
    (event_generator prov disc store request).1 =
      ((stream_chat_response prov request.message
        ((load_session_history store request.session_id).map Message.toRaw)).fragments.take
          k).map SSEEvent.fragment ++ [SSEEvent.endEvent "Stream finished"] := by
  simp only [event_generator]
  rw [streamLoop_disconnect _ disc "" k hk hdisc hbefore]
  rfl

/-- Claim C2: whatever ends the stream (normal completion, caller
disconnect, or a driver error), the `finally` block appends a
model-authored turn to the session's durable history exactly when the
accumulated reply (the concatenation of the fragments relayed before the
stream ended) contains a non-whitespace character, and the persisted
text is that accumulated reply; in particular with zero fragments
nothing is persisted. -/
theorem C2_model_turn_persistence (prov : Provider) (disc : Nat → Bool)
    (store : String → List Message) (request : ChatRequest) :
    (event_generator prov disc store request).2 =
      (if pyStrip (accumulatedReply prov disc store request) ≠ "" then
        append_message_to_session store
          ⟨request.session_id, "model", accumulatedReply prov disc store request⟩
       else store) := by
  simp only [event_generator, accumulatedReply]
  rw [streamLoop_acc]
  rfl

/-- Claim C3, counterexample: the claim asserts normalization never
raises for unrecognized record shapes. An attribute object exposing a
`text` attribute but no `role` attribute is sent to the first
smart-detection branch (`hasattr(msg, 'text')`), which then reads
`msg.role` unconditionally and raises an attribute error. -/
theorem C3_counterexample :
    normalizeHistory [RawRecord.obj none (some (PyVal.str "x")) none] =
      Except.error "AttributeError: role" := rfl

/-- Claim C3, amended: normalization never raises on any dict record and
on any attribute object that lacks a `text` attribute or carries a
`role` attribute as well; on such inputs every produced turn has role
`user` or `model` and a single non-empty content string, and records
whose content is empty after extraction are dropped. (It is not total
over all unrecognized shapes: an object with `text` but no `role`
raises, as `C3_counterexample` shows.) -/
theorem C3_amended_total_on_safe_shapes (records : List RawRecord)
    (h : ∀ r ∈ records, r.safeShape = true) :
    ∃ ts, normalizeHistory records = Except.ok ts ∧
      ∀ t ∈ ts, (t.role = "user" ∨ t.role = "model") ∧
        ∃ s, t.parts = [s] ∧ s ≠ "" := by
  induction records with
  | nil =>
    refine ⟨[], rfl, ?_⟩
    intro t ht
    exact absurd ht (List.not_mem_nil t)
  | cons r rest ih =>
    obtain ⟨ts, hts, hprop⟩ := ih (fun x hx => h x (List.mem_cons_of_mem r hx))
    obtain ⟨o, ho, hop⟩ := normalizeRecord_safe r (h r (List.mem_cons_self r rest))
    cases o with
    | none =>
      refine ⟨ts, ?_, hprop⟩
      simp only [normalizeHistory]
      rw [ho]
      exact hts
    | some t0 =>
      refine ⟨t0 :: ts, ?_, ?_⟩
      · simp only [normalizeHistory]
        rw [ho, hts]
      · intro t ht
        rcases List.mem_cons.mp ht with h1 | h1
        · subst h1
          exact hop t rfl
        · exact hprop t h1

/-- Claim C4: a request whose session id is unknown is rejected with
exactly the 404 `Session not found` exception, and one whose session is
known but whose model handle was never initialized with exactly the 503
`Gemini client not available` exception (the session check runs first,
as in `chat_stream`); in both cases the returned state is the input
state unchanged — no user turn was appended and no title was updated. -/
theorem C4_validation_before_side_effects (prov : Provider) (disc : Nat → Bool)
    (st : AppState) (request : ChatRequest) :
    (dictFind st.sessions request.session_id = none →
      chat_stream prov disc st request =
        ChatStreamResult.httpError 404 "Session not found" st) ∧
    (∀ s, dictFind st.sessions request.session_id = some s →
      st.gemini_client = false →
      chat_stream prov disc st request =
        ChatStreamResult.httpError 503 "Gemini client not available" st) := by
  constructor
  · intro h
    unfold chat_stream
    rw [h]
  · intro s hsome hclient
    unfold chat_stream
    rw [hsome, hclient]
    rfl

/-- Claim C5: when the driver raises mid-stream (after its fragments,
with the caller still connected), the generator emits the relayed
fragment events followed by exactly one terminal `error` event carrying
the error's description — the error is converted, not re-raised, since
`event_generator` returns normally — and the `finally` persistence step
still runs on the accumulated fragments. -/
theorem C5_mid_stream_error (prov : Provider) (disc : Nat → Bool)
    (store : String → List Message) (request : ChatRequest) (e : String)
    (herr : (stream_chat_response prov request.message
      ((load_session_history store request.session_id).map Message.toRaw)).error = some e)
    (hnodisc : ∀ j, j < (stream_chat_response prov request.message
      ((load_session_history store request.session_id).map Message.toRaw)).fragments.length →
      disc j = false) :
    (event_generator prov disc store request).1 =
      ((stream_chat_response prov request.message
        ((load_session_history store request.session_id).map Message.toRaw)).fragments.map
          SSEEvent.fragment) ++ [SSEEvent.errorEvent e] ∧
    (event_generator prov disc store request).2 =
      (if pyStrip (concatAll (stream_chat_response prov request.message
          ((load_session_history store request.session_id).map Message.toRaw)).fragments) ≠ ""
       then
        append_message_to_session store
          ⟨request.session_id, "model",
           concatAll (stream_chat_response prov request.message
             ((load_session_history store request.session_id).map Message.toRaw)).fragments⟩
       else store) := by
  constructor
  · simp only [event_generator]
    rw [streamLoop_nodisc _ disc "" hnodisc, herr]
    rfl
  · simp only [event_generator]
    rw [streamLoop_nodisc _ disc "" hnodisc]
    rfl

/-- Claim C6: the normalizer maps the two-record input
`[\x7brole:"model", text:"hi"\x7d, \x7brole:"bob", parts:["a","b"]\x7d]` to
exactly `model/"hi"` followed by `user/"a b"`: the `model` role is kept,
the unknown role `bob` collapses to `user`, and the list content is
joined with single spaces, in input order. -/
theorem C6_normalize_example :
    normalizeHistory [RawRecord.dict (some "model") (some (PyVal.str "hi")) none,
      RawRecord.dict (some "bob") none (some (PyVal.list ["a", "b"]))] =
      Except.ok [⟨"model", ["hi"]⟩, ⟨"user", ["a b"]⟩] := rfl

/-- Claim C7: on a validated request, if the session's title is exactly
the placeholder `New Chat` the handler stores — in the in-memory session
map and in the durable sessions index — the title made of the first five
whitespace-separated words of the message joined by single spaces; any
other title is left untouched in both places. -/
theorem C7_title_update (prov : Provider) (disc : Nat → Bool) (st : AppState)
    (request : ChatRequest) (s s2 : Session)
    (hs : dictFind st.sessions request.session_id = some s)
    (hc : st.gemini_client = true)
    (hd : dictFind st.disk_sessions request.session_id = some s2)
    (hid : s2.id = request.session_id) :
    ∃ evs st2, chat_stream prov disc st request = ChatStreamResult.ok evs st2 ∧
      (s.title = "New Chat" →
        dictFind st2.sessions request.session_id =
          some { s with title := String.intercalate " " ((pySplit request.message).take 5) } ∧
        dictFind st2.disk_sessions request.session_id =
          some { s2 with title := String.intercalate " " ((pySplit request.message).take 5) }) ∧
      (s.title ≠ "New Chat" →
        st2.sessions = st.sessions ∧ st2.disk_sessions = st.disk_sessions) := by
  unfold chat_stream
  rw [hs, hc]
  refine ⟨_, _, rfl, ?_, ?_⟩
  · intro ht
    dsimp only
    rw [if_pos ht, if_pos ht]
    constructor
    · exact dictFind_dictSet_self st.sessions request.session_id _ (by rw [hs]; rfl)
    · exact dictFind_update_title st.disk_sessions request.session_id _ s2 hd hid
  · intro ht
    dsimp only
    rw [if_neg ht, if_neg ht]
    exact ⟨rfl, rfl⟩

/-- Claim C8: normalization is idempotent on canonical output: a
sequence of turns whose roles are already `user` or `model` and whose
content is a single non-empty string is mapped to itself. -/
theorem C8_normalize_idempotent (ts : List GTurn) (h : ∀ t ∈ ts, canonicalTurn t) :
    normalizeHistory (ts.map GTurn.toRaw) = Except.ok ts := by
  induction ts with
  | nil => rfl
  | cons t rest ih =>
    obtain ⟨hrole, s, hparts, hs⟩ := h t (List.mem_cons_self t rest)
    have hrest := ih (fun x hx => h x (List.mem_cons_of_mem t hx))
    have hgr : (if t.role = "model" then "model" else "user") = t.role := by
      rcases hrole with hr | hr <;> simp [hr]
    have ht : (⟨t.role, [s]⟩ : GTurn) = t := by
      rw [← hparts]
    have hex : extractRoleContent (GTurn.toRaw t) =
        Except.ok (t.role, pyOr (some (PyVal.list t.parts)) (PyVal.str "")) := rfl
    have hnr : normalizeRecord (GTurn.toRaw t) = Except.ok (some t) := by
      rw [normalizeRecord_of_extract _ _ _ hex, hparts]
      have hco : coerceContent (pyOr (some (PyVal.list [s])) (PyVal.str "")) = s := rfl
      rw [hco, if_neg hs, hgr, ht]
    simp only [List.map_cons, normalizeHistory]
    rw [hnr, hrest]

/-- Claim C9: the caller-supplied history field has no influence: two
chat requests agreeing on session id and message text produce the same
`chat_stream` result — the same event stream and the same final state —
whatever their `history` fields, since the model conversation is seeded
from durable storage only. -/
theorem C9_history_field_ignored (prov : Provider) (disc : Nat → Bool) (st : AppState)
    (req1 req2 : ChatRequest) (hsid : req1.session_id = req2.session_id)
    (hmsg : req1.message = req2.message) :
    chat_stream prov disc st req1 = chat_stream prov disc st req2 := by
  obtain ⟨sid1, m1, h1⟩ := req1
  obtain ⟨sid2, m2, h2⟩ := req2
  have hs2 : sid1 = sid2 := hsid
  have hm2 : m1 = m2 := hmsg
  subst hs2
  subst hm2
  rfl

/-- Claim C10: on a validated request with a non-empty message, the user
turn is appended to durable history before the generator reloads it, so
the raw history handed to the streaming driver ends with a user turn
whose text is the request's message; after normalization the formatted
history still ends with that turn, while `event_generator` additionally
passes `request.message` itself to the driver as the newest user turn —
the model receives the new message twice. -/
theorem C10_message_received_twice (prov : Provider) (disc : Nat → Bool)
    (st : AppState) (request : ChatRequest) (s : Session)
    (hs : dictFind st.sessions request.session_id = some s)
    (hc : st.gemini_client = true)
    (hmsg : request.message ≠ "") :
    (∃ evs st2, chat_stream prov disc st request = ChatStreamResult.ok evs st2) ∧
    (load_session_history (append_message_to_session st.store
        ⟨request.session_id, "user", request.message⟩) request.session_id).getLast? =
      some ⟨request.session_id, "user", request.message⟩ ∧
    (∃ ts, normalizeHistory ((load_session_history (append_message_to_session st.store
        ⟨request.session_id, "user", request.message⟩) request.session_id).map
          Message.toRaw) = Except.ok ts ∧
      ts.getLast? = some ⟨"user", [request.message]⟩) := by
  have hload : load_session_history (append_message_to_session st.store
      ⟨request.session_id, "user", request.message⟩) request.session_id =
      st.store request.session_id ++ [⟨request.session_id, "user", request.message⟩] := by
    unfold load_session_history append_message_to_session
    rw [if_pos rfl]
  refine ⟨?_, ?_, ?_⟩
  · unfold chat_stream
    rw [hs, hc]
    exact ⟨_, _, rfl⟩
  · rw [hload, List.getLast?_concat]
  · obtain ⟨ts0, hts0⟩ := normalizeHistory_map_toRaw_ok (st.store request.session_id)
    have hu : normalizeRecord (Message.toRaw ⟨request.session_id, "user", request.message⟩) =
        Except.ok (some ⟨"user", [request.message]⟩) := by
      rw [normalizeRecord_msg_toRaw _ hmsg]
      rfl
    refine ⟨ts0 ++ [⟨"user", [request.message]⟩], ?_, List.getLast?_concat _⟩
    rw [hload, List.map_append, List.map_cons, List.map_nil]
    exact normalizeHistory_append_ok _ _ _ hu ts0 hts0

/-- A concrete session used by the witness instances. -/
def sessW : Session := ⟨"s1", "New Chat"⟩

/-- A concrete application state with one session, an initialized client
and empty history files. -/
def stW : AppState := ⟨[("s1", sessW)], true, fun _ => [], [("s1", sessW)]⟩

/-- A provider streaming two fragments and completing normally. -/
def provW : Provider := fun _ _ => ⟨["Hello", " world"], none⟩

/-- A provider raising `boom` after one fragment. -/
def provE : Provider := fun _ _ => ⟨["hi"], some "boom"⟩

/-- A concrete request. -/
def reqW : ChatRequest := ⟨"s1", "Tell me a long story please now", []⟩

/-- Witness for `C1_amended_disconnect_emits_end`: three pending
fragments, disconnect poll positive from poll 1 — one fragment event
then the `end` event. -/
theorem C1_amended_witness :
    (event_generator provW (fun i => decide (1 ≤ i)) (fun _ => []) reqW).1 =
      ((stream_chat_response provW reqW.message
        ((load_session_history (fun _ => []) reqW.session_id).map Message.toRaw)).fragments.take
          1).map SSEEvent.fragment ++ [SSEEvent.endEvent "Stream finished"] :=
  C1_amended_disconnect_emits_end provW (fun i => decide (1 ≤ i)) (fun _ => []) reqW 1
    (by decide) rfl
    (by
      intro j hj
      have hj0 : j = 0 := by omega
      subst hj0
      rfl)

/-- Witness for `C3_amended_total_on_safe_shapes` at a one-record list. -/
theorem C3_amended_witness :
    ∃ ts, normalizeHistory [RawRecord.dict (some "bob") none (some (PyVal.list ["a", "b"]))] =
        Except.ok ts ∧
      ∀ t ∈ ts, (t.role = "user" ∨ t.role = "model") ∧
        ∃ s, t.parts = [s] ∧ s ≠ "" :=
  C3_amended_total_on_safe_shapes
    [RawRecord.dict (some "bob") none (some (PyVal.list ["a", "b"]))] (by decide)

/-- A concrete application state whose model handle was never
initialized. -/
def stNoClient : AppState := ⟨[("s1", sessW)], false, fun _ => [], [("s1", sessW)]⟩

/-- Witness for `C4_validation_before_side_effects`: an unknown session
id is rejected with 404, and a known session with an uninitialized
client with 503, each with the state unchanged. -/
theorem C4_witness :
    chat_stream provW (fun _ => false) stW ⟨"zz", "hi", []⟩ =
      ChatStreamResult.httpError 404 "Session not found" stW ∧
    chat_stream provW (fun _ => false) stNoClient reqW =
      ChatStreamResult.httpError 503 "Gemini client not available" stNoClient :=
  ⟨(C4_validation_before_side_effects provW (fun _ => false) stW ⟨"zz", "hi", []⟩).1 rfl,
   (C4_validation_before_side_effects provW (fun _ => false) stNoClient reqW).2 sessW rfl rfl⟩

/-- Witness for `C5_mid_stream_error`: one fragment, then the provider
raises `boom`, with the caller connected throughout. -/
theorem C5_witness :
    (event_generator provE (fun _ => false) (fun _ => []) reqW).1 =
      ((stream_chat_response provE reqW.message
        ((load_session_history (fun _ => []) reqW.session_id).map Message.toRaw)).fragments.map
          SSEEvent.fragment) ++ [SSEEvent.errorEvent "boom"] ∧
    (event_generator provE (fun _ => false) (fun _ => []) reqW).2 =
      (if pyStrip (concatAll (stream_chat_response provE reqW.message
          ((load_session_history (fun _ => []) reqW.session_id).map Message.toRaw)).fragments) ≠ ""
       then
        append_message_to_session (fun _ => [])
          ⟨reqW.session_id, "model",
           concatAll (stream_chat_response provE reqW.message
             ((load_session_history (fun _ => []) reqW.session_id).map Message.toRaw)).fragments⟩
       else fun _ => []) :=
  C5_mid_stream_error provE (fun _ => false) (fun _ => []) reqW "boom" rfl (fun _ _ => rfl)

/-- Witness for `C7_title_update` at a session titled `New Chat`. -/
theorem C7_witness :
    ∃ evs st2, chat_stream provW (fun _ => false) stW reqW = ChatStreamResult.ok evs st2 ∧
      (sessW.title = "New Chat" →
        dictFind st2.sessions reqW.session_id =
          some { sessW with title := String.intercalate " " ((pySplit reqW.message).take 5) } ∧
        dictFind st2.disk_sessions reqW.session_id =
          some { sessW with title := String.intercalate " " ((pySplit reqW.message).take 5) }) ∧
      (sessW.title ≠ "New Chat" →
        st2.sessions = stW.sessions ∧ st2.disk_sessions = stW.disk_sessions) :=
  C7_title_update provW (fun _ => false) stW reqW sessW sessW rfl rfl rfl rfl

/-- Witness for `C8_normalize_idempotent` at a one-turn canonical list. -/
theorem C8_witness :
    normalizeHistory (([⟨"model", ["ok"]⟩] : List GTurn).map GTurn.toRaw) =
      Except.ok [⟨"model", ["ok"]⟩] := by
  exact C8_normalize_idempotent [⟨"model", ["ok"]⟩] (by
    intro t ht
    rw [List.mem_singleton] at ht
    subst ht
    exact ⟨Or.inr rfl, "ok", rfl, by decide⟩)

/-- Witness for `C9_history_field_ignored`: same session id and message,
one request with an empty history field and one with a tampered one. -/
theorem C9_witness :
    chat_stream provW (fun _ => false) stW ⟨"s1", "hello", []⟩ =
      chat_stream provW (fun _ => false) stW
        ⟨"s1", "hello", [⟨PyVal.str "tampered", "user"⟩]⟩ :=
  C9_history_field_ignored provW (fun _ => false) stW ⟨"s1", "hello", []⟩
    ⟨"s1", "hello", [⟨PyVal.str "tampered", "user"⟩]⟩ rfl rfl

/-- Witness for `C10_message_received_twice` at the concrete state. -/
theorem C10_witness :
    (∃ evs st2, chat_stream provW (fun _ => false) stW reqW = ChatStreamResult.ok evs st2) ∧
    (load_session_history (append_message_to_session stW.store
        ⟨reqW.session_id, "user", reqW.message⟩) reqW.session_id).getLast? =
      some ⟨reqW.session_id, "user", reqW.message⟩ ∧
    (∃ ts, normalizeHistory ((load_session_history (append_message_to_session stW.store
        ⟨reqW.session_id, "user", reqW.message⟩) reqW.session_id).map
          Message.toRaw) = Except.ok ts ∧
      ts.getLast? = some ⟨"user", [reqW.message]⟩) :=
  C10_message_received_twice provW (fun _ => false) stW reqW sessW rfl rfl (by decide)

end Backend
